import Mathlib

/-
Formal model of the dynamic orchestration engine of this repository
(src/system/orchestrator_dynamic.py).  Python strings are modelled as Lean
`String`, Python `x in s` substring tests as an executable character-list
scan, `pathlib` paths as strings joined with "/", and the filesystem
workspace as an explicit record of the artifacts the assessor reads.
-/

namespace Spec2Proof

/-- Character-list model of Python `str.startswith`: the first list is a
leading segment of the second. -/
def hasPre : List Char → List Char → Bool
  | [], _ => true
  | _ :: _, [] => false
  | a :: as, b :: bs => a == b && hasPre as bs

/-- Character-list model of Python substring containment (`needle in hay`). -/
def hasSub (needle : List Char) : List Char → Bool
  | [] => needle.isEmpty
  | c :: rest => hasPre needle (c :: rest) || hasSub needle rest

/-- Python `needle in hay` on strings (case-sensitive literal search). -/
def strContains (hay needle : String) : Bool :=
  hasSub needle.data hay.data

/-- Python `s.startswith(p)`. -/
def strStarts (s p : String) : Bool :=
  hasPre p.data s.data

/-- Python `s.endswith(p)` (used to model `*.md`-style glob patterns). -/
def strEnds (s p : String) : Bool :=
  hasPre p.data.reverse s.data.reverse

/-- Path join `a / b` of `pathlib` (the orchestrator only ever joins with
forward slashes). -/
def joinPath (a b : String) : String :=
  a ++ "/" ++ b

/-- Mirror of `class ProjectPhase(Enum)` (orchestrator_dynamic.py, lines 24-32). -/
inductive ProjectPhase where
  | UNINITIALIZED
  | ARCHITECTURAL_DIALOGUE
  | DOCUMENTATION_SYNTHESIS
  | IMPLEMENTATION
  | AUDIT
  | COMPLETE
  | FAILED
  deriving DecidableEq

/-- The `.value` string of each `ProjectPhase` member. -/
def phaseValue : ProjectPhase → String
  | .UNINITIALIZED => "uninitialized"
  | .ARCHITECTURAL_DIALOGUE => "architectural_dialogue"
  | .DOCUMENTATION_SYNTHESIS => "documentation_synthesis"
  | .IMPLEMENTATION => "implementation"
  | .AUDIT => "audit"
  | .COMPLETE => "complete"
  | .FAILED => "failed"

/-- Mirror of `class ActionType(Enum)` (lines 69-78). -/
inductive ActionType where
  | RUN_DIALOGUE
  | SYNTHESIZE_DOCS
  | IMPLEMENT_CODE
  | RUN_AUDIT
  | UPDATE_DOCS
  | ASK_HUMAN
  | COMPLETE
  | ABORT
  deriving DecidableEq

/-- Mirror of `@dataclass ProjectState` (lines 35-59): the same fields with
the same defaults; `Optional[bool]` becomes `Option Bool`, `Optional[str]`
becomes `Option String`, and `Path` becomes `String`. -/
structure ProjectState where
  workspace_path : String
  project_name : String
  has_requirements : Bool := false
  has_conversation : Bool := false
  has_architecture_doc : Bool := false
  has_constraints_doc : Bool := false
  has_code : Bool := false
  has_implementation_log : Bool := false
  has_audit_log : Bool := false
  current_phase : ProjectPhase := .UNINITIALIZED
  dialogue_consensus : Bool := false
  implementation_success : Option Bool := none
  audit_passed : Option Bool := none
  last_error : Option String := none
  human_feedback : Option String := none
  deriving DecidableEq

/-- Python `str(b)` for a bool. -/
def pyBool : Bool → String
  | true => "True"
  | false => "False"

/-- Python `str(x)` for an `Optional[bool]`. -/
def pyOptBool : Option Bool → String
  | none => "None"
  | some b => pyBool b

/-- Mirror of `ProjectState.__repr__` (lines 60-66). -/
def reprState (s : ProjectState) : String :=
  "ProjectState(phase=" ++ phaseValue s.current_phase ++
  ", docs=" ++ pyBool (s.has_architecture_doc && s.has_constraints_doc) ++
  ", code=" ++ pyBool s.has_code ++
  ", audit=" ++ pyOptBool s.audit_passed ++ ")"

/-- Mirror of `DynamicOrchestrator._infer_phase` (lines 184-207): the ordered
cascade of early returns, translated as nested if-then-else. -/
def inferPhase (state : ProjectState) : ProjectPhase :=
  if !state.has_requirements then .UNINITIALIZED
  else if !state.has_conversation || !state.dialogue_consensus then .ARCHITECTURAL_DIALOGUE
  else if !state.has_architecture_doc || !state.has_constraints_doc then .DOCUMENTATION_SYNTHESIS
  else if !state.has_code then .IMPLEMENTATION
  else if state.has_code && !state.has_audit_log then .AUDIT
  else if state.audit_passed = some false then .FAILED
  else if state.audit_passed = some true then .COMPLETE
  else .UNINITIALIZED

/-- Values that can appear in an action's `inputs` dict: paths, booleans,
plain strings and string lists. -/
inductive InputVal where
  | pathVal (p : String)
  | boolVal (b : Bool)
  | strVal (s : String)
  | listVal (l : List String)
  deriving DecidableEq

/-- Mirror of `@dataclass OrchestratorAction` (lines 81-89); the Python
`inputs: Dict = None` becomes an optional association list. -/
structure OrchestratorAction where
  action_type : ActionType
  reason : String
  inputs : Option (List (String × InputVal)) := none
  deriving DecidableEq

/-- Look up a key in an action's `inputs` dict. -/
def lookupInput (a : OrchestratorAction) (k : String) : Option InputVal :=
  (a.inputs.getD []).lookup k

/-- Mirror of `DynamicOrchestrator.decide_next_action` (lines 209-297): a
sequence of guarded early returns; a guard is the conjunction of the Python
conditions on the path to that `return`, and control falls through to the
final fallback action otherwise. -/
def decideNextAction (state : ProjectState) : OrchestratorAction :=
  if state.current_phase = .UNINITIALIZED ∧ !state.has_requirements then
    { action_type := .ASK_HUMAN
      reason := "No requirements found. Need project description to start."
      inputs := some [("need", .strVal "requirements.md")] }
  else if state.current_phase = .ARCHITECTURAL_DIALOGUE ∧ !state.has_conversation then
    { action_type := .RUN_DIALOGUE
      reason := "No conversation exists. Starting Architect <-> Coder dialogue."
      inputs := some [("requirements_path", .pathVal (joinPath state.workspace_path "requirements.md"))] }
  else if state.current_phase = .ARCHITECTURAL_DIALOGUE ∧ state.has_conversation ∧ !state.dialogue_consensus then
    { action_type := .RUN_DIALOGUE
      reason := "Conversation exists but no consensus reached. Continuing dialogue."
      inputs := some [("resume", .boolVal true)] }
  else if state.current_phase = .DOCUMENTATION_SYNTHESIS then
    { action_type := .SYNTHESIZE_DOCS
      reason := "Dialogue consensus reached. Synthesizing architecture documentation."
      inputs := some [("conversation_path", .pathVal (joinPath state.workspace_path "conversation")),
                      ("output_path", .pathVal (joinPath state.workspace_path "architecture"))] }
  else if state.current_phase = .IMPLEMENTATION then
    { action_type := .IMPLEMENT_CODE
      reason := "Architecture documented. Starting implementation."
      inputs := some [("architecture_path", .pathVal (joinPath state.workspace_path "architecture")),
                      ("output_path", .pathVal (joinPath state.workspace_path "code"))] }
  else if state.current_phase = .AUDIT then
    { action_type := .RUN_AUDIT
      reason := "Implementation complete. Running constraint validation."
      inputs := some [("constraints_path", .pathVal (joinPath (joinPath state.workspace_path "architecture") "CONSTRAINTS.md")),
                      ("code_path", .pathVal (joinPath state.workspace_path "code")),
                      ("output_path", .pathVal (joinPath state.workspace_path "logs"))] }
  else if state.current_phase = .FAILED ∧ state.audit_passed = some false then
    { action_type := .ASK_HUMAN
      reason := "Audit failed. Review violations and decide: fix implementation or revise architecture?"
      inputs := some [("audit_log", .pathVal (joinPath state.workspace_path "logs")),
                      ("options", .listVal ["fix_implementation", "revise_architecture", "accept_violations"])] }
  else if state.current_phase = .COMPLETE then
    { action_type := .COMPLETE
      reason := "Project complete: docs generated, code implemented, audit passed." }
  else
    { action_type := .ASK_HUMAN
      reason := "Unknown state: " ++ reprState state ++ ". Human intervention required." }

/-- Result of the SDK permission callback: `PermissionResultAllow` or
`PermissionResultDeny(message=...)`. -/
inductive PermResult where
  | allow
  | deny (message : String)
  deriving DecidableEq

/-- Mirror of the `workspace_code_writes` permission callback defined inside
`_execute_implementation` (lines 546-573).  `workspacePath` is
`str(state.workspace_path)` (which also equals the closed-over
`workspace_str`), and `filePath` is `input_data.get("file_path", "")`
modelled as an optional value defaulted to the empty string. -/
def workspace_code_writes (workspacePath : String) (toolName : String)
    (filePath : Option String) : PermResult :=
  if toolName ∈ (["Read", "Glob", "Grep"] : List String) then
    .allow
  else if toolName ∈ (["Write", "Edit"] : List String) then
    let fp := filePath.getD ""
    let codeDir := joinPath workspacePath "code"
    if strStarts fp codeDir
        || strStarts fp (workspacePath ++ "/code/")
        || strStarts fp (workspacePath ++ "\\code\\")
        || strContains fp "\\code\\" || strContains fp "/code/" then
      .allow
    else
      .deny ("Can only write to " ++ codeDir ++ "/")
  else
    .deny ("Tool " ++ toolName ++ " not allowed")

/-- One file on disk, as the assessor sees it: its (base) name, its
modification timestamp (modelled as a logical clock value) and its text. -/
structure WsFile where
  name : String
  mtime : Nat
  content : String
  deriving DecidableEq

/-- The slice of the filesystem that `assess_project_state` reads for one
project.  A directory that does not exist is modelled the same way as an
empty directory: in the Python code every fact derived from a missing
subdirectory is identical to the fact derived from an empty one. -/
structure Workspace where
  workspaceRoot : String
  projectName : String
  dirPresent : Bool
  hasRequirementsFile : Bool
  conversationFiles : List WsFile
  hasArchDoc : Bool
  hasConstraintsDoc : Bool
  codeFiles : List String
  logFiles : List WsFile
  deriving DecidableEq

/-- Python `max(files, key=lambda p: p.stat().st_mtime)`: scans left to
right and replaces the current maximum only on a strictly larger key, hence
keeps the first of several maxima. -/
def maxByMtime : List WsFile → Option WsFile
  | [] => none
  | f :: fs => some (fs.foldl (fun acc g => if g.mtime > acc.mtime then g else acc) f)

/-- Glob `*.md` over the direct entries of a directory. -/
def mdGlob (files : List WsFile) : List WsFile :=
  files.filter (fun f => strEnds f.name ".md")

/-- Glob `AUDIT_LOG_*.md` over the direct entries of the logs directory
(`*` may be empty and file names contain no path separator). -/
def auditGlob (files : List WsFile) : List WsFile :=
  files.filter (fun f =>
    strStarts f.name "AUDIT_LOG_" && strEnds f.name ".md" && 13 ≤ f.name.length)

/-- Extension test performed by the four code globs
`**/*.py`, `**/*.js`, `**/*.ts`, `**/*.tsx` (line 161): a path in the code
tree is counted iff it carries one of the four extensions. -/
def codeExt (p : String) : Bool :=
  strEnds p ".py" || strEnds p ".js" || strEnds p ".ts" || strEnds p ".tsx"

/-- Content of the most recently modified audit log, if any. -/
def latestAuditText (w : Workspace) : Option String :=
  (maxByMtime (auditGlob w.logFiles)).map (fun f => f.content)

/-- Consensus-marker fact read from the most recently modified conversation
transcript (lines 146-150); false when no transcript exists. -/
def convConsensus (w : Workspace) : Bool :=
  match maxByMtime (mdGlob w.conversationFiles) with
  | some f => strContains f.content "CONSENSUS" && strContains f.content "AGREED"
  | none => false

/-- Tri-state audit verdict read from the most recently modified audit log
(lines 172-176): pass marker present and fail marker absent; `none` when no
audit log exists. -/
def auditVerdict (w : Workspace) : Option Bool :=
  (maxByMtime (auditGlob w.logFiles)).map
    (fun f => strContains f.content "PASS" && !strContains f.content "FAIL")

/-- The boolean/tri-state facts gathered by `assess_project_state`
(lines 136-176), before the phase is derived. -/
def assessFacts (w : Workspace) : ProjectState :=
  { workspace_path := joinPath w.workspaceRoot w.projectName
    project_name := w.projectName
    has_requirements := w.hasRequirementsFile
    has_conversation := !(mdGlob w.conversationFiles).isEmpty
    dialogue_consensus := convConsensus w
    has_architecture_doc := w.hasArchDoc
    has_constraints_doc := w.hasConstraintsDoc
    has_code := !(w.codeFiles.filter codeExt).isEmpty
    has_implementation_log := w.logFiles.any (fun f => f.name == "IMPLEMENTATION_LOG.md")
    has_audit_log := !(auditGlob w.logFiles).isEmpty
    audit_passed := auditVerdict w }

/-- Mirror of `DynamicOrchestrator.assess_project_state` (lines 117-182):
the early return for a missing workspace directory keeps every fact at its
dataclass default; otherwise the facts are gathered and the phase derived
with `_infer_phase`. -/
def assess (w : Workspace) : ProjectState :=
  if !w.dirPresent then
    { workspace_path := joinPath w.workspaceRoot w.projectName, project_name := w.projectName }
  else
    { assessFacts w with current_phase := inferPhase (assessFacts w) }

/-- The raw guard of rule `i` of the eight ordered phase-inference rules of
spec section 4.2, read off the spec's wording (not yet including the
implicit negation of the earlier rules). -/
def ruleGuard (i : Fin 8) (s : ProjectState) : Bool :=
  match i with
  | 0 => !s.has_requirements
  | 1 => !s.has_conversation || !s.dialogue_consensus
  | 2 => !s.has_architecture_doc || !s.has_constraints_doc
  | 3 => !s.has_code
  | 4 => s.has_code && !s.has_audit_log
  | 5 => s.audit_passed = some false
  | 6 => s.audit_passed = some true
  | 7 => true

/-- The phase assigned by rule `i` of spec section 4.2. -/
def rulePhase : Fin 8 → ProjectPhase
  | 0 => .UNINITIALIZED
  | 1 => .ARCHITECTURAL_DIALOGUE
  | 2 => .DOCUMENTATION_SYNTHESIS
  | 3 => .IMPLEMENTATION
  | 4 => .AUDIT
  | 5 => .FAILED
  | 6 => .COMPLETE
  | 7 => .UNINITIALIZED

/-- Phase given by the first rule (in the spec's order) whose guard holds;
rule 7 is a catch-all so the search always succeeds. -/
def firstMatchPhase (s : ProjectState) : ProjectPhase :=
  match (List.finRange 8).find? (fun i => ruleGuard i s) with
  | some i => rulePhase i
  | none => .UNINITIALIZED

/-- Rule `i` "applies" in the sense of spec section 4.2: its guard holds
and, the earlier rules' guards all fail (each rule's precondition includes
the negation of all earlier rules implicitly). -/
def ruleApplies (i : Fin 8) (s : ProjectState) : Bool :=
  ruleGuard i s && ((List.finRange 8).filter (fun j => j < i)).all (fun j => !ruleGuard j s)

/-- C4: for every `ProjectState`, `_infer_phase` returns the phase of the
first matching rule of the ordered list of spec section 4.2, and exactly
one of the eight rules (each taken with the implicit negation of all
earlier rules) applies — in particular this holds for every state built by
the assessor. -/
theorem c4_infer_phase_first_match (s : ProjectState) :
    inferPhase s = firstMatchPhase s ∧
    ((List.finRange 8).filter (fun i => ruleApplies i s)).length = 1 := by
  obtain ⟨wp, pn, hreq, hconv, harch, hconstr, hcode, himpl, haud, cph,
    dcons, isucc, apass, lerr, hfb⟩ := s
  cases hreq <;> cases hconv <;> cases dcons <;> cases harch <;> cases hconstr <;>
    cases hcode <;> cases haud <;> rcases apass with _ | b <;> (try cases b) <;>
    exact ⟨rfl, rfl⟩

/-- Witness for C4 at a concrete state. -/
theorem c4_infer_phase_first_match_witness :
    inferPhase { workspace_path := "workspaces/w4", project_name := "w4" } =
      firstMatchPhase { workspace_path := "workspaces/w4", project_name := "w4" } ∧
    ((List.finRange 8).filter
      (fun i => ruleApplies i { workspace_path := "workspaces/w4", project_name := "w4" })).length = 1 :=
  c4_infer_phase_first_match { workspace_path := "workspaces/w4", project_name := "w4" }

/-- A concrete `ProjectState` used to instantiate the purity theorem. -/
def demoState : ProjectState :=
  { workspace_path := "workspaces/demo", project_name := "demo",
    has_requirements := true, has_conversation := true, dialogue_consensus := true,
    has_architecture_doc := true, has_constraints_doc := true,
    current_phase := .DOCUMENTATION_SYNTHESIS }

/-- C5: the decision engine is a pure, total, deterministic function — it is
definable as a Lean function of the `ProjectState` alone (it reads no other
state), so structurally equal states yield equal actions, with the same
`action_type` and the same `reason` string. -/
theorem c5_decide_pure (s t : ProjectState) (h : s = t) :
    decideNextAction s = decideNextAction t ∧
    (decideNextAction s).action_type = (decideNextAction t).action_type ∧
    (decideNextAction s).reason = (decideNextAction t).reason := by
  subst h
  exact ⟨rfl, rfl, rfl⟩

/-- Witness for C5 at a concrete state. -/
theorem c5_decide_pure_witness :
    decideNextAction demoState = decideNextAction demoState ∧
    (decideNextAction demoState).action_type = (decideNextAction demoState).action_type ∧
    (decideNextAction demoState).reason = (decideNextAction demoState).reason :=
  c5_decide_pure demoState demoState rfl

/-- Mirror of the consensus computation of `_execute_dialogue`
(lines 415-419), with the four turn texts in their temporal order
architect 1, coder 1, architect 2, coder 2. -/
def hasConsensus (architectMsg1 coderMsg1 architectMsg2 coderMsg2 : String) : Bool :=
  (strContains architectMsg2 "CONSENSUS" || strContains architectMsg1 "CONSENSUS") &&
  (strContains coderMsg2 "AGREED" || strContains coderMsg1 "AGREED")

/-- C7: the computed consensus boolean is true iff "CONSENSUS" appears in
one of the architect turns and "AGREED" appears in one of the coder turns;
in particular it is false whenever no architect turn contains "CONSENSUS",
whatever the coder turns contain. -/
theorem c7_consensus_iff (a1 c1 a2 c2 : String) :
    (hasConsensus a1 c1 a2 c2 = true ↔
      ((strContains a1 "CONSENSUS" = true ∨ strContains a2 "CONSENSUS" = true) ∧
       (strContains c1 "AGREED" = true ∨ strContains c2 "AGREED" = true))) ∧
    ((strContains a1 "CONSENSUS" = false ∧ strContains a2 "CONSENSUS" = false) →
      hasConsensus a1 c1 a2 c2 = false) := by
  constructor
  · simp only [hasConsensus, Bool.and_eq_true, Bool.or_eq_true]
    tauto
  · rintro ⟨h1, h2⟩
    simp [hasConsensus, h1, h2]

/-- Witness for C7: architect turns without the marker force a false
consensus even though a coder turn says "AGREED". -/
theorem c7_consensus_iff_witness :
    hasConsensus "We will use Vite." "AGREED: fine" "Final answer." "ok" = false :=
  (c7_consensus_iff "We will use Vite." "AGREED: fine" "Final answer." "ok").2
    ⟨by decide, by decide⟩

/-- C10: during IMPLEMENT_CODE the permission callback denies every tool
whose name is outside the set Read, Glob, Grep, Write, Edit — for every
workspace and every input — with the message built from the tool name. -/
theorem c10_tool_allowlist (ws tool : String) (input : Option String)
    (h : tool ∉ (["Read", "Glob", "Grep", "Write", "Edit"] : List String)) :
    workspace_code_writes ws tool input = .deny ("Tool " ++ tool ++ " not allowed") := by
  simp only [List.mem_cons, List.not_mem_nil, or_false, not_or] at h
  obtain ⟨hr, hg, hgr, hw, he⟩ := h
  simp [workspace_code_writes, hr, hg, hgr, hw, he]

/-- Witness for C10: `Bash` is rejected even on a path inside the code
directory. -/
theorem c10_tool_allowlist_witness :
    workspace_code_writes "workspaces/demo" "Bash" (some "workspaces/demo/code/x.py") =
      .deny ("Tool " ++ "Bash" ++ " not allowed") :=
  c10_tool_allowlist "workspaces/demo" "Bash" (some "workspaces/demo/code/x.py") (by decide)

/-- C1 (evaluation at the failing input): the callback does allow a write
beneath the workspace code directory and does deny `../../etc/passwd`, but
it also allows `/evil/code/payload.py` and `../../code/evil.py` — write
paths far outside the workspace — because any path merely containing the
substring "/code/" passes the check, contradicting both the claim and the
callback's own docstring ("Allow writes only to this workspace's code/
directory"). -/
theorem c1_permission_not_code_scoped :
    workspace_code_writes "workspaces/demo" "Write" (some "workspaces/demo/code/src/App.tsx") = .allow ∧
    workspace_code_writes "workspaces/demo" "Write" (some "../../etc/passwd") =
      .deny "Can only write to workspaces/demo/code/" ∧
    workspace_code_writes "workspaces/demo" "Write" (some "/evil/code/payload.py") = .allow ∧
    workspace_code_writes "workspaces/demo" "Edit" (some "../../code/evil.py") = .allow := by
  decide

/-- On an existing workspace directory, the assessed state is the gathered
facts together with the inferred phase. -/
theorem assess_eq_of_dir (w : Workspace) (hd : w.dirPresent = true) :
    assess w = { assessFacts w with current_phase := inferPhase (assessFacts w) } := by
  simp [assess, hd]

/-- A workspace whose assessed state records an audit log must exist as a
directory (the missing-directory early return leaves every fact false). -/
theorem dirPresent_of_audit (w : Workspace) (h : (assess w).has_audit_log = true) :
    w.dirPresent = true := by
  cases hd : w.dirPresent with
  | true => rfl
  | false => simp [assess, hd] at h

/-- A workspace with the earlier-stage facts, code, and a latest audit log
containing "FAIL" — every hypothesis of the amended audit-feedback claim is
met. -/
def fullFailWorkspace : Workspace :=
  { workspaceRoot := "workspaces", projectName := "cx6", dirPresent := true,
    hasRequirementsFile := true,
    conversationFiles := [⟨"dialogue_1.md", 1, "CONSENSUS: x AGREED: y"⟩],
    hasArchDoc := true, hasConstraintsDoc := true,
    codeFiles := ["src/App.tsx"],
    logFiles := [⟨"AUDIT_LOG_2.md", 2, "RESULT: FAIL"⟩] }

/-- Like `fullFailWorkspace` but with no requirements artifact: the claim's
stated hypotheses still hold, yet the decision differs. -/
def noReqWorkspace : Workspace :=
  { workspaceRoot := "workspaces", projectName := "cx6", dirPresent := true,
    hasRequirementsFile := false,
    conversationFiles := [⟨"dialogue_1.md", 1, "CONSENSUS: x AGREED: y"⟩],
    hasArchDoc := true, hasConstraintsDoc := true,
    codeFiles := ["src/App.tsx"],
    logFiles := [⟨"AUDIT_LOG_2.md", 2, "RESULT: FAIL"⟩] }

/-- C6 as stated is false: a state with `has_code = true`,
`has_audit_log = true` and latest audit text containing "FAIL" but with no
requirements artifact is classified UNINITIALIZED, and the decided action
is the "No requirements found" ASK_HUMAN, which carries no option list. -/
theorem c6_audit_fail_cex :
    (assess noReqWorkspace).has_code = true ∧
    (assess noReqWorkspace).has_audit_log = true ∧
    latestAuditText noReqWorkspace = some "RESULT: FAIL" ∧
    strContains "RESULT: FAIL" "FAIL" = true ∧
    (decideNextAction (assess noReqWorkspace)).reason =
      "No requirements found. Need project description to start." ∧
    lookupInput (decideNextAction (assess noReqWorkspace)) "options" = none := by
  decide

/-- C6 amended: for every workspace whose assessed state also has the
earlier-stage facts (requirements, conversation with consensus, both
documentation files) in addition to `has_code = true`,
`has_audit_log = true` and a latest audit log containing "FAIL", the next
decided action is ASK_HUMAN with the option list fix_implementation,
revise_architecture, accept_violations. -/
theorem c6_audit_fail_amended (w : Workspace) (c : String)
    (hreq : (assess w).has_requirements = true)
    (hconv : (assess w).has_conversation = true)
    (hcons : (assess w).dialogue_consensus = true)
    (harch : (assess w).has_architecture_doc = true)
    (hconstr : (assess w).has_constraints_doc = true)
    (hcode : (assess w).has_code = true)
    (haud : (assess w).has_audit_log = true)
    (hlat : latestAuditText w = some c)
    (hfailc : strContains c "FAIL" = true) :
    (decideNextAction (assess w)).action_type = .ASK_HUMAN ∧
    lookupInput (decideNextAction (assess w)) "options" =
      some (.listVal ["fix_implementation", "revise_architecture", "accept_violations"]) := by
  have hd := dirPresent_of_audit w haud
  have hverdict : auditVerdict w = some false := by
    obtain ⟨f, hf, hfc⟩ := Option.map_eq_some'.mp hlat
    rw [auditVerdict, hf, Option.map_some', hfc, hfailc]
    simp
  rw [assess_eq_of_dir w hd] at hreq hconv hcons harch hconstr hcode haud ⊢
  simp only [assessFacts] at hreq hconv hcons harch hconstr hcode haud
  have hph : inferPhase (assessFacts w) = .FAILED := by
    simp [inferPhase, assessFacts, hreq, hconv, hcons, harch, hconstr, hcode, haud, hverdict]
  rw [hph]
  simp [decideNextAction, assessFacts, hverdict, lookupInput, List.lookup]

/-- Witness for the amended C6 at a concrete fully-staged workspace. -/
theorem c6_audit_fail_amended_witness :
    (decideNextAction (assess fullFailWorkspace)).action_type = .ASK_HUMAN ∧
    lookupInput (decideNextAction (assess fullFailWorkspace)) "options" =
      some (.listVal ["fix_implementation", "revise_architecture", "accept_violations"]) :=
  c6_audit_fail_amended fullFailWorkspace "RESULT: FAIL"
    (by decide) (by decide) (by decide) (by decide) (by decide)
    (by decide) (by decide) (by decide) (by decide)

/-- C9: `has_code` is true only for code files carrying one of the four
extensions .py, .js, .ts, .tsx — a code directory holding only files of
other types yields `has_code = false`, and a project with the earlier-stage
facts in place is then classified IMPLEMENTATION. -/
theorem c9_code_extensions (w : Workspace)
    (hall : w.codeFiles.all (fun p => !codeExt p) = true) :
    (assess w).has_code = false ∧
    ((assess w).has_requirements = true → (assess w).has_conversation = true →
     (assess w).dialogue_consensus = true → (assess w).has_architecture_doc = true →
     (assess w).has_constraints_doc = true → (assess w).current_phase = .IMPLEMENTATION) := by
  have hfilter : w.codeFiles.filter codeExt = [] := by
    rw [List.filter_eq_nil_iff]
    intro a ha
    have := (List.all_eq_true.mp hall) a ha
    simp at this
    simp [this]
  cases hd : w.dirPresent with
  | false =>
    constructor
    · simp [assess, hd]
    · intro hreq
      simp [assess, hd] at hreq
  | true =>
    rw [assess_eq_of_dir w hd]
    constructor
    · simp [assessFacts, hfilter]
    · intro hreq hconv hcons harch hconstr
      simp only [assessFacts] at hreq hconv hcons harch hconstr
      simp [inferPhase, assessFacts, hreq, hconv, hcons, harch, hconstr, hfilter]

/-- A project whose code directory holds only an HTML and a CSS file, with
every earlier-stage artifact present. -/
def htmlOnlyWorkspace : Workspace :=
  { workspaceRoot := "workspaces", projectName := "cx9", dirPresent := true,
    hasRequirementsFile := true,
    conversationFiles := [⟨"dialogue_1.md", 1, "CONSENSUS: x AGREED: y"⟩],
    hasArchDoc := true, hasConstraintsDoc := true,
    codeFiles := ["index.html", "styles/site.css"],
    logFiles := [] }

/-- Witness for C9: HTML and CSS files do not count as code, and the
assessor sends such a project back to IMPLEMENTATION. -/
theorem c9_code_extensions_witness :
    (assess htmlOnlyWorkspace).has_code = false ∧
    (assess htmlOnlyWorkspace).current_phase = .IMPLEMENTATION :=
  ⟨(c9_code_extensions htmlOnlyWorkspace (by decide)).1,
   (c9_code_extensions htmlOnlyWorkspace (by decide)).2
     (by decide) (by decide) (by decide) (by decide) (by decide)⟩

theorem hasPre_append (n h h2 : List Char) (hp : hasPre n h = true) :
    hasPre n (h ++ h2) = true := by
  induction n generalizing h with
  | nil => simp [hasPre]
  | cons a as ih =>
    cases h with
    | nil => simp [hasPre] at hp
    | cons b bs =>
      simp [hasPre] at hp ⊢
      exact ⟨hp.1, ih bs hp.2⟩

theorem hasSub_nil_needle (h : List Char) : hasSub [] h = true := by
  cases h with
  | nil => rfl
  | cons c t => simp [hasSub, hasPre]

theorem hasSub_append_right (n h h2 : List Char) (hs : hasSub n h = true) :
    hasSub n (h ++ h2) = true := by
  induction h with
  | nil =>
    have hn : n = [] := by
      cases n with
      | nil => rfl
      | cons a as => simp [hasSub, List.isEmpty] at hs
    subst hn
    exact hasSub_nil_needle h2
  | cons c t ih =>
    simp only [hasSub, Bool.or_eq_true] at hs
    rcases hs with h1 | h1
    · have : hasPre n ((c :: t) ++ h2) = true := hasPre_append n (c :: t) h2 h1
      simp only [List.cons_append] at this
      simp only [List.cons_append, hasSub, Bool.or_eq_true]
      exact Or.inl this
    · simp only [List.cons_append, hasSub, Bool.or_eq_true]
      exact Or.inr (ih h1)

theorem hasSub_append_left (n h1 h2 : List Char) (hs : hasSub n h2 = true) :
    hasSub n (h1 ++ h2) = true := by
  induction h1 with
  | nil => simpa using hs
  | cons c t ih =>
    simp only [List.cons_append, hasSub, Bool.or_eq_true]
    exact Or.inr ih

theorem strData_append (a b : String) : (a ++ b).data = a.data ++ b.data := by
  cases a; cases b; rfl

theorem strContains_append_left (a b n : String) (h : strContains b n = true) :
    strContains (a ++ b) n = true := by
  unfold strContains at h ⊢
  rw [strData_append]
  exact hasSub_append_left _ _ _ h

theorem strContains_append_right (a b n : String) (h : strContains a n = true) :
    strContains (a ++ b) n = true := by
  unfold strContains at h ⊢
  rw [strData_append]
  exact hasSub_append_right _ _ _ h

/-- Per-turn sections of a transcript file, mirroring the write loop of
`_execute_dialogue` (lines 437-440). -/
def turnsText : List (String × String) → String
  | [] => ""
  | (role, msg) :: rest => "## " ++ role ++ "\n\n" ++ msg ++ "\n\n" ++ "---\n\n" ++ turnsText rest

/-- Full text of a transcript file, mirroring the header and body writes of
`_execute_dialogue` (lines 429-440); the wall-clock date string is
abstracted to a logical timestamp. -/
def transcriptContent (projectName dateStr : String) (consensusB : Bool)
    (log : List (String × String)) : String :=
  "# Multi-Agent Architectural Dialogue\n\n" ++
  "**Date:** " ++ dateStr ++ "\n" ++
  "**Project:** " ++ projectName ++ "\n" ++
  "**Turns:** " ++ toString log.length ++ "\n" ++
  "**Consensus:** " ++ (if consensusB then "YES" else "NO") ++ "\n\n" ++
  "---\n\n" ++
  turnsText log

theorem turnsText_has (log : List (String × String)) (role msg n : String)
    (hmem : (role, msg) ∈ log) (h : strContains msg n = true) :
    strContains (turnsText log) n = true := by
  induction log with
  | nil => cases hmem
  | cons p rest ih =>
    rcases List.mem_cons.mp hmem with heq | hmem2
    · cases heq
      simp only [turnsText]
      apply strContains_append_right
      apply strContains_append_right
      apply strContains_append_right
      apply strContains_append_left
      exact h
    · obtain ⟨prole, pmsg⟩ := p
      simp only [turnsText]
      apply strContains_append_left
      exact ih hmem2

theorem transcriptContent_has (pn date : String) (cb : Bool)
    (log : List (String × String)) (n : String)
    (h : strContains (turnsText log) n = true) :
    strContains (transcriptContent pn date cb log) n = true := by
  unfold transcriptContent
  repeat apply strContains_append_left
  exact h

/-- Logical timestamp string (the wall-clock `datetime.now().strftime(...)`
abstracted to an iteration counter). -/
def tsStr (t : Nat) : String :=
  toString t

/-- Responses of the external collaborators for one orchestration run.
Each field is the outcome of the corresponding collaborator call(s):
`.ok` carries the generated text, `.error` models the call raising an
exception.  The dialogue's four `query_agent` calls are summarised by one
outcome carrying the four turn texts (architect 1, coder 1, architect 2,
coder 2) since the engine only consumes the returned strings.  A
deterministic collaborator is modelled: repeated calls return the same
outcome. -/
structure RunEnv where
  dialogueRes : Except String (String × String × String × String)
  archDocRes : Except String String
  constraintsDocRes : Except String String
  implRes : Except String (String × List String)
  auditRes : Except String String

/-- Mirror of `_execute_dialogue` (lines 338-442): query the two personas
for four turns, compute the consensus boolean, and append one new
timestamped transcript file (prior transcripts are never overwritten).
An exception in a collaborator call propagates (there is no handler). -/
def execDialogue (env : RunEnv) (w : Workspace) (t : Nat) : Except String Workspace :=
  match env.dialogueRes with
  | .error e => .error e
  | .ok (a1, c1, a2, c2) =>
    let consensusB := hasConsensus a1 c1 a2 c2
    let log := [("Architect", a1), ("Coder", c1), ("Architect", a2), ("Coder", c2)]
    let file : WsFile :=
      { name := "dialogue_" ++ tsStr t ++ ".md", mtime := t,
        content := transcriptContent w.projectName (tsStr t) consensusB log }
    .ok { w with conversationFiles := w.conversationFiles ++ [file] }

/-- Mirror of `_execute_docs_synthesis` (lines 444-519): an empty
conversation directory aborts with a printed error (not an exception); the
docs collaborator is queried once per document and the two files are
(over)written.  The partially-written state on a second-call failure is
dropped together with the run, as the loop has no handler. -/
def execDocs (env : RunEnv) (w : Workspace) (_t : Nat) : Except String Workspace :=
  if (mdGlob w.conversationFiles).isEmpty then .ok w
  else
    match env.archDocRes with
    | .error e => .error e
    | .ok _ =>
      match env.constraintsDocRes with
      | .error e => .error e
      | .ok _ => .ok { w with hasArchDoc := true, hasConstraintsDoc := true }

/-- Text of the implementation log file written by `_execute_implementation`
(lines 635-643). -/
def implLogContent (dateStr projectName response : String) : String :=
  "# IMPLEMENTATION LOG\n\n" ++
  "**Date:** " ++ dateStr ++ "\n" ++
  "**Agent:** Implementation Coder\n" ++
  "**Project:** " ++ projectName ++ "\n" ++
  "**Method:** Autonomous implementation from architecture docs\n\n" ++
  "---\n\n" ++
  "## Agent Response\n\n" ++
  response ++ "\n\n"

/-- Mirror of `_execute_implementation` (lines 521-648): missing
architecture docs abort with a printed error; otherwise the implementation
collaborator runs under the `workspace_code_writes` permission gate (the
files it successfully creates below the code directory are returned as
relative paths) and a timestamped implementation log is written.  The
`try/finally` around the query only disconnects the client, so an
exception still propagates. -/
def execImpl (env : RunEnv) (w : Workspace) (t : Nat) : Except String Workspace :=
  if !(w.hasArchDoc && w.hasConstraintsDoc) then .ok w
  else
    match env.implRes with
    | .error e => .error e
    | .ok (response, files) =>
      let logFile : WsFile :=
        { name := "implementation_" ++ tsStr t ++ ".md", mtime := t,
          content := implLogContent (tsStr t) w.projectName response }
      .ok { w with codeFiles := w.codeFiles ++ files, logFiles := w.logFiles ++ [logFile] }

/-- Mirror of `_execute_audit` (lines 650-654): the body is
`pass` under a TODO comment — it performs no workspace mutation and writes
no audit artifact. -/
def auditStepStub (w : Workspace) (_t : Nat) : Except String Workspace :=
  .ok w

/-- Modelled from the spec: the repository's `_execute_audit` is an
unimplemented stub, so the audit collaborator of spec sections 4.4 and 6 is
modelled from the spec's words — it compares code against constraints and
writes one audit artifact `AUDIT_LOG_<timestamp>.md` into the logs
directory whose text carries a literal pass/fail marker. -/
def auditStepSpec (env : RunEnv) (w : Workspace) (t : Nat) : Except String Workspace :=
  match env.auditRes with
  | .error e => .error e
  | .ok text =>
    let file : WsFile := { name := "AUDIT_LOG_" ++ tsStr t ++ ".md", mtime := t, content := text }
    .ok { w with logFiles := w.logFiles ++ [file] }

/-- Mirror of `execute_action` (lines 299-336) minus the history append
(which the loop model performs, matching line 313 happening before the
dispatch): dispatch on the action type; ASK_HUMAN, COMPLETE and the
unknown-action branch only print. -/
def execAction (env : RunEnv) (auditStep : Workspace → Nat → Except String Workspace)
    (a : OrchestratorAction) (w : Workspace) (t : Nat) : Except String Workspace :=
  match a.action_type with
  | .RUN_DIALOGUE => execDialogue env w t
  | .SYNTHESIZE_DOCS => execDocs env w t
  | .IMPLEMENT_CODE => execImpl env w t
  | .RUN_AUDIT => auditStep w t
  | _ => .ok w

/-- Python `action.action_type in [COMPLETE, ASK_HUMAN, ABORT]`
(line 729). -/
def haltType (t : ActionType) : Bool :=
  [ActionType.COMPLETE, ActionType.ASK_HUMAN, ActionType.ABORT].contains t

/-- Outcome of one orchestration run: whether an exception escaped the
loop, the phase assessed at the start of each executed iteration, the
action history, whether the iteration budget ran out (the for-else
"[WARNING] Max iterations reached" branch), whether the summary reporting
block ran, whether the `finally` agent cleanup ran, and the final
workspace. -/
structure RunResult where
  crashed : Option String
  phases : List ProjectPhase
  history : List OrchestratorAction
  budgetExhausted : Bool
  reportingDone : Bool
  cleanupDone : Bool
  finalWs : Workspace

/-- The iteration loop of `orchestrate` (lines 714-736): assess, decide,
append to history, execute, and halt on a terminal action type; when the
budget runs out the for-else warning marks the run incomplete.  An
exception from `execute_action` propagates out of the loop: the summary
reporting (lines 738-746) is skipped and only the `finally` cleanup runs. -/
def loopGo (env : RunEnv) (auditStep : Workspace → Nat → Except String Workspace) :
    Nat → Workspace → Nat → List ProjectPhase → List OrchestratorAction → RunResult
  | 0, w, _t, phs, hist =>
    { crashed := none, phases := phs, history := hist, budgetExhausted := true,
      reportingDone := true, cleanupDone := true, finalWs := w }
  | fuel + 1, w, t, phs, hist =>
    let st := assess w
    let a := decideNextAction st
    let hist2 := hist ++ [a]
    let phs2 := phs ++ [st.current_phase]
    match execAction env auditStep a w t with
    | .error e =>
      { crashed := some e, phases := phs2, history := hist2, budgetExhausted := false,
        reportingDone := false, cleanupDone := true, finalWs := w }
    | .ok w2 =>
      if haltType a.action_type then
        { crashed := none, phases := phs2, history := hist2, budgetExhausted := false,
          reportingDone := true, cleanupDone := true, finalWs := w2 }
      else loopGo env auditStep fuel w2 (t + 1) phs2 hist2

/-- Mirror of `orchestrate` (lines 685-750): the workspace directory is
created up front (`workspace.mkdir(parents=True, exist_ok=True)`), then the
loop runs with the given iteration budget (default 10 in the source). -/
def orchestrate (env : RunEnv) (auditStep : Workspace → Nat → Except String Workspace)
    (w : Workspace) (maxIterations : Nat) : RunResult :=
  loopGo env auditStep maxIterations { w with dirPresent := true } 0 [] []

/-- A workspace holding only `requirements.md`, as in the happy-path
scenario. -/
def freshWorkspace : Workspace :=
  { workspaceRoot := "workspaces", projectName := "lp", dirPresent := true,
    hasRequirementsFile := true, conversationFiles := [],
    hasArchDoc := false, hasConstraintsDoc := false, codeFiles := [], logFiles := [] }

/-- Collaborators that all succeed, reach consensus, implement a code file
and return a passing audit. -/
def happyEnv : RunEnv :=
  { dialogueRes := .ok ("Use Vite. CONSENSUS: Vite.", "Fine.", "Confirmed.", "AGREED: ok."),
    archDocRes := .ok "# ARCHITECTURE", constraintsDocRes := .ok "# CONSTRAINTS",
    implRes := .ok ("Done.", ["src/App.tsx"]),
    auditRes := .ok "AUDIT RESULT: PASS" }

theorem loopGo_step_ok (env : RunEnv) (aud : Workspace → Nat → Except String Workspace)
    (fuel : Nat) (w : Workspace) (t : Nat)
    (phs : List ProjectPhase) (hist : List OrchestratorAction)
    (st : ProjectState) (a : OrchestratorAction) (w2 : Workspace)
    (hst : assess w = st) (ha : decideNextAction st = a)
    (hnh : haltType a.action_type = false)
    (hw2 : execAction env aud a w t = .ok w2) :
    loopGo env aud (fuel + 1) w t phs hist =
      loopGo env aud fuel w2 (t + 1) (phs ++ [st.current_phase]) (hist ++ [a]) := by
  simp only [loopGo, hst, ha, hw2, hnh]
  rfl

theorem loopGo_step_halt (env : RunEnv) (aud : Workspace → Nat → Except String Workspace)
    (fuel : Nat) (w : Workspace) (t : Nat)
    (phs : List ProjectPhase) (hist : List OrchestratorAction)
    (st : ProjectState) (a : OrchestratorAction) (w2 : Workspace)
    (hst : assess w = st) (ha : decideNextAction st = a)
    (hh : haltType a.action_type = true)
    (hw2 : execAction env aud a w t = .ok w2) :
    loopGo env aud (fuel + 1) w t phs hist =
      { crashed := none, phases := phs ++ [st.current_phase], history := hist ++ [a],
        budgetExhausted := false, reportingDone := true, cleanupDone := true,
        finalWs := w2 } := by
  simp only [loopGo, hst, ha, hw2, hh, if_true]

theorem loopGo_step_err (env : RunEnv) (aud : Workspace → Nat → Except String Workspace)
    (fuel : Nat) (w : Workspace) (t : Nat)
    (phs : List ProjectPhase) (hist : List OrchestratorAction)
    (st : ProjectState) (a : OrchestratorAction) (e : String)
    (hst : assess w = st) (ha : decideNextAction st = a)
    (he : execAction env aud a w t = .error e) :
    loopGo env aud (fuel + 1) w t phs hist =
      { crashed := some e, phases := phs ++ [st.current_phase], history := hist ++ [a],
        budgetExhausted := false, reportingDone := false, cleanupDone := true,
        finalWs := w } := by
  simp only [loopGo, hst, ha, he]

/-- The workspace record the loop starts from (after the directory
creation at the top of `orchestrate`). -/
def ws0C3 : Workspace :=
  { freshWorkspace with dirPresent := true }

/-- Collaborators whose very first dialogue call raises. -/
def errEnv : RunEnv :=
  { dialogueRes := .error "boom", archDocRes := .ok "a", constraintsDocRes := .ok "b",
    implRes := .ok ("c", []), auditRes := .ok "AUDIT RESULT: PASS" }

/-- C2 as stated is false: when the dialogue collaborator raises, the
exception escapes `execute_action` and the loop — the run crashes and the
summary reporting never happens. -/
theorem c2_error_escapes_cex :
    (orchestrate errEnv auditStepStub freshWorkspace 10).crashed = some "boom" ∧
    (orchestrate errEnv auditStepStub freshWorkspace 10).reportingDone = false := by
  decide

/-- C2 amended: a collaborator error is not caught at the Action Executor
boundary — it propagates out of `execute_action` and aborts the loop before
the summary reporting block, with only the `finally` agent cleanup running;
the failed action is still recorded in history (it is appended before the
dispatch). -/
theorem c2_error_propagation (env : RunEnv)
    (aud : Workspace → Nat → Except String Workspace) (e : String) (n : Nat)
    (hdia : env.dialogueRes = .error e) :
    (orchestrate env aud freshWorkspace (n + 1)).crashed = some e ∧
    (orchestrate env aud freshWorkspace (n + 1)).reportingDone = false ∧
    (orchestrate env aud freshWorkspace (n + 1)).cleanupDone = true ∧
    (orchestrate env aud freshWorkspace (n + 1)).history.length = 1 ∧
    (orchestrate env aud freshWorkspace (n + 1)).phases = [.ARCHITECTURAL_DIALOGUE] := by
  have hexec : execAction env aud (decideNextAction (assess ws0C3)) ws0C3 0 = .error e := by
    show execDialogue env ws0C3 0 = .error e
    unfold execDialogue
    rw [hdia]
  have hrun : orchestrate env aud freshWorkspace (n + 1) =
      { crashed := some e, phases := [.ARCHITECTURAL_DIALOGUE],
        history := [decideNextAction (assess ws0C3)], budgetExhausted := false,
        reportingDone := false, cleanupDone := true, finalWs := ws0C3 } := by
    show loopGo env aud (n + 1) ws0C3 0 [] [] = _
    rw [loopGo_step_err env aud n ws0C3 0 [] [] (assess ws0C3)
      (decideNextAction (assess ws0C3)) e rfl rfl hexec]
    rfl
  rw [hrun]
  exact ⟨rfl, rfl, rfl, rfl, rfl⟩

/-- Witness for the amended C2 at a concrete erroring environment. -/
theorem c2_error_propagation_witness :
    (orchestrate errEnv auditStepStub freshWorkspace 10).crashed = some "boom" ∧
    (orchestrate errEnv auditStepStub freshWorkspace 10).reportingDone = false ∧
    (orchestrate errEnv auditStepStub freshWorkspace 10).cleanupDone = true ∧
    (orchestrate errEnv auditStepStub freshWorkspace 10).history.length = 1 ∧
    (orchestrate errEnv auditStepStub freshWorkspace 10).phases = [.ARCHITECTURAL_DIALOGUE] :=
  c2_error_propagation errEnv auditStepStub "boom" 9 rfl

theorem filter_isEmpty_false {α : Type} (l : List α) (p : α → Bool) (h : l.any p = true) :
    (l.filter p).isEmpty = false := by
  obtain ⟨x, hx, hpx⟩ := List.any_eq_true.mp h
  have hmem : x ∈ l.filter p := List.mem_filter.mpr ⟨hx, hpx⟩
  cases hfe : l.filter p with
  | nil => rw [hfe] at hmem; cases hmem
  | cons a as => rfl

/-- The four turns of one dialogue run in temporal order, as logged. -/
def dialogueLog (a1 c1 a2 c2 : String) : List (String × String) :=
  [("Architect", a1), ("Coder", c1), ("Architect", a2), ("Coder", c2)]

/-- Text of the transcript produced by the happy path's single dialogue
call (at logical time 0, project "lp"). -/
def c3Content (a1 c1 a2 c2 : String) : String :=
  transcriptContent "lp" (tsStr 0) (hasConsensus a1 c1 a2 c2) (dialogueLog a1 c1 a2 c2)

/-- Workspace after the dialogue iteration of the happy path. -/
def ws1C3 (a1 c1 a2 c2 : String) : Workspace :=
  { ws0C3 with conversationFiles :=
      [⟨"dialogue_" ++ tsStr 0 ++ ".md", 0, c3Content a1 c1 a2 c2⟩] }

/-- Workspace after the documentation-synthesis iteration. -/
def ws2C3 (a1 c1 a2 c2 : String) : Workspace :=
  { ws1C3 a1 c1 a2 c2 with hasArchDoc := true, hasConstraintsDoc := true }

/-- Implementation log file written at logical time 2. -/
def implLogC3 (resp : String) : WsFile :=
  ⟨"implementation_" ++ tsStr 2 ++ ".md", 2, implLogContent (tsStr 2) "lp" resp⟩

/-- Workspace after the implementation iteration. -/
def ws3C3 (a1 c1 a2 c2 resp : String) (files : List String) : Workspace :=
  { ws2C3 a1 c1 a2 c2 with codeFiles := files, logFiles := [implLogC3 resp] }

/-- Workspace after the (spec-modelled) audit iteration. -/
def ws4C3 (a1 c1 a2 c2 resp atext : String) (files : List String) : Workspace :=
  { ws3C3 a1 c1 a2 c2 resp files with
    logFiles := [implLogC3 resp, ⟨"AUDIT_LOG_" ++ tsStr 3 ++ ".md", 3, atext⟩] }

/-- Assessed state after the dialogue iteration. -/
def s1C3 : ProjectState :=
  { workspace_path := "workspaces/lp", project_name := "lp",
    has_requirements := true, has_conversation := true, dialogue_consensus := true,
    current_phase := .DOCUMENTATION_SYNTHESIS }

/-- Assessed state after the documentation-synthesis iteration. -/
def s2C3 : ProjectState :=
  { s1C3 with
    has_architecture_doc := true
    has_constraints_doc := true
    current_phase := .IMPLEMENTATION }

/-- Assessed state after the implementation iteration. -/
def s3C3 : ProjectState :=
  { s2C3 with has_code := true, current_phase := .AUDIT }

/-- Assessed state after the audit iteration. -/
def s4C3 : ProjectState :=
  { s3C3 with
    has_audit_log := true
    audit_passed := some true
    current_phase := .COMPLETE }

theorem assess_ws1C3 (a1 c1 a2 c2 : String)
    (hC : strContains (c3Content a1 c1 a2 c2) "CONSENSUS" = true)
    (hA : strContains (c3Content a1 c1 a2 c2) "AGREED" = true) :
    assess (ws1C3 a1 c1 a2 c2) = s1C3 := by
  have hfacts : assessFacts (ws1C3 a1 c1 a2 c2) =
      { workspace_path := "workspaces/lp", project_name := "lp",
        has_requirements := true, has_conversation := true,
        dialogue_consensus := strContains (c3Content a1 c1 a2 c2) "CONSENSUS" &&
          strContains (c3Content a1 c1 a2 c2) "AGREED" } := rfl
  rw [hC, hA] at hfacts
  rw [assess_eq_of_dir _ rfl, hfacts]
  decide

theorem assess_ws2C3 (a1 c1 a2 c2 : String)
    (hC : strContains (c3Content a1 c1 a2 c2) "CONSENSUS" = true)
    (hA : strContains (c3Content a1 c1 a2 c2) "AGREED" = true) :
    assess (ws2C3 a1 c1 a2 c2) = s2C3 := by
  have hfacts : assessFacts (ws2C3 a1 c1 a2 c2) =
      { workspace_path := "workspaces/lp", project_name := "lp",
        has_requirements := true, has_conversation := true,
        has_architecture_doc := true, has_constraints_doc := true,
        dialogue_consensus := strContains (c3Content a1 c1 a2 c2) "CONSENSUS" &&
          strContains (c3Content a1 c1 a2 c2) "AGREED" } := rfl
  rw [hC, hA] at hfacts
  rw [assess_eq_of_dir _ rfl, hfacts]
  decide

theorem assess_ws3C3 (a1 c1 a2 c2 resp : String) (files : List String)
    (hC : strContains (c3Content a1 c1 a2 c2) "CONSENSUS" = true)
    (hA : strContains (c3Content a1 c1 a2 c2) "AGREED" = true)
    (hfiles : files.any codeExt = true) :
    assess (ws3C3 a1 c1 a2 c2 resp files) = s3C3 := by
  have hfacts : assessFacts (ws3C3 a1 c1 a2 c2 resp files) =
      { workspace_path := "workspaces/lp", project_name := "lp",
        has_requirements := true, has_conversation := true,
        has_architecture_doc := true, has_constraints_doc := true,
        has_code := !(files.filter codeExt).isEmpty,
        dialogue_consensus := strContains (c3Content a1 c1 a2 c2) "CONSENSUS" &&
          strContains (c3Content a1 c1 a2 c2) "AGREED" } := rfl
  rw [hC, hA, filter_isEmpty_false files codeExt hfiles] at hfacts
  rw [assess_eq_of_dir _ rfl, hfacts]
  decide

theorem assess_ws4C3 (a1 c1 a2 c2 resp atext : String) (files : List String)
    (hC : strContains (c3Content a1 c1 a2 c2) "CONSENSUS" = true)
    (hA : strContains (c3Content a1 c1 a2 c2) "AGREED" = true)
    (hfiles : files.any codeExt = true)
    (hpass : strContains atext "PASS" = true)
    (hfail : strContains atext "FAIL" = false) :
    assess (ws4C3 a1 c1 a2 c2 resp atext files) = s4C3 := by
  have hfacts : assessFacts (ws4C3 a1 c1 a2 c2 resp atext files) =
      { workspace_path := "workspaces/lp", project_name := "lp",
        has_requirements := true, has_conversation := true,
        has_architecture_doc := true, has_constraints_doc := true,
        has_code := !(files.filter codeExt).isEmpty,
        has_audit_log := true,
        audit_passed := some (strContains atext "PASS" && !strContains atext "FAIL"),
        dialogue_consensus := strContains (c3Content a1 c1 a2 c2) "CONSENSUS" &&
          strContains (c3Content a1 c1 a2 c2) "AGREED" } := rfl
  rw [hC, hA, hpass, hfail, filter_isEmpty_false files codeExt hfiles] at hfacts
  rw [assess_eq_of_dir _ rfl, hfacts]
  decide

/-- C3 as stated is false on the code: with every collaborator available
and succeeding, the first phase the loop assesses on a requirements-only
workspace is ARCHITECTURAL_DIALOGUE (UNINITIALIZED is never assessed), and
because `_execute_audit` is an unimplemented stub that writes no audit
artifact, the run re-assesses AUDIT until the budget runs out and never
reaches COMPLETE. -/
theorem c3_happy_path_cex :
    (orchestrate happyEnv auditStepStub freshWorkspace 10).phases ≠
      [.UNINITIALIZED, .ARCHITECTURAL_DIALOGUE, .DOCUMENTATION_SYNTHESIS,
       .IMPLEMENTATION, .AUDIT, .COMPLETE] ∧
    (orchestrate happyEnv auditStepStub freshWorkspace 10).phases =
      [.ARCHITECTURAL_DIALOGUE, .DOCUMENTATION_SYNTHESIS, .IMPLEMENTATION,
       .AUDIT, .AUDIT, .AUDIT, .AUDIT, .AUDIT, .AUDIT, .AUDIT] := by
  decide

/-- C3 amended: starting from a workspace holding only `requirements.md`,
with every collaborator call succeeding — the dialogue producing the
consensus markers, the implementation creating at least one file with a
code extension, and the audit step modelled from the spec writing a passing
audit artifact (the in-repo audit executor is a stub) — the assessed phases
are exactly ARCHITECTURAL_DIALOGUE, DOCUMENTATION_SYNTHESIS,
IMPLEMENTATION, AUDIT, COMPLETE in that order, with no phase skipped or
revisited; UNINITIALIZED is only the pre-assessment default and is never
assessed. -/
theorem c3_happy_path_amended (env : RunEnv)
    (a1 c1 a2 c2 d1 d2 resp atext : String) (files : List String)
    (hdia : env.dialogueRes = .ok (a1, c1, a2, c2))
    (hd1 : env.archDocRes = .ok d1)
    (hd2 : env.constraintsDocRes = .ok d2)
    (himpl : env.implRes = .ok (resp, files))
    (hauda : env.auditRes = .ok atext)
    (hconsA : (strContains a2 "CONSENSUS" || strContains a1 "CONSENSUS") = true)
    (hconsC : (strContains c2 "AGREED" || strContains c1 "AGREED") = true)
    (hfiles : files.any codeExt = true)
    (hpass : strContains atext "PASS" = true)
    (hfail : strContains atext "FAIL" = false) :
    (orchestrate env (auditStepSpec env) freshWorkspace 10).phases =
      [.ARCHITECTURAL_DIALOGUE, .DOCUMENTATION_SYNTHESIS, .IMPLEMENTATION,
       .AUDIT, .COMPLETE] ∧
    (orchestrate env (auditStepSpec env) freshWorkspace 10).crashed = none ∧
    (orchestrate env (auditStepSpec env) freshWorkspace 10).budgetExhausted = false := by
  have hC : strContains (c3Content a1 c1 a2 c2) "CONSENSUS" = true := by
    unfold c3Content
    apply transcriptContent_has
    have hcA : strContains a2 "CONSENSUS" = true ∨ strContains a1 "CONSENSUS" = true := by
      simpa using hconsA
    rcases hcA with h | h
    · exact turnsText_has _ "Architect" a2 _ (by simp [dialogueLog]) h
    · exact turnsText_has _ "Architect" a1 _ (by simp [dialogueLog]) h
  have hA : strContains (c3Content a1 c1 a2 c2) "AGREED" = true := by
    unfold c3Content
    apply transcriptContent_has
    have hcC : strContains c2 "AGREED" = true ∨ strContains c1 "AGREED" = true := by
      simpa using hconsC
    rcases hcC with h | h
    · exact turnsText_has _ "Coder" c2 _ (by simp [dialogueLog]) h
    · exact turnsText_has _ "Coder" c1 _ (by simp [dialogueLog]) h
  have hs1 := assess_ws1C3 a1 c1 a2 c2 hC hA
  have hs2 := assess_ws2C3 a1 c1 a2 c2 hC hA
  have hs3 := assess_ws3C3 a1 c1 a2 c2 resp files hC hA hfiles
  have hs4 := assess_ws4C3 a1 c1 a2 c2 resp atext files hC hA hfiles hpass hfail
  have hexec0 : execAction env (auditStepSpec env) (decideNextAction (assess ws0C3))
      ws0C3 0 = .ok (ws1C3 a1 c1 a2 c2) := by
    show execDialogue env ws0C3 0 = _
    unfold execDialogue
    rw [hdia]
    rfl
  have hexec1 : execAction env (auditStepSpec env) (decideNextAction s1C3)
      (ws1C3 a1 c1 a2 c2) 1 = .ok (ws2C3 a1 c1 a2 c2) := by
    show execDocs env (ws1C3 a1 c1 a2 c2) 1 = _
    unfold execDocs
    rw [hd1, hd2]
    rfl
  have hexec2 : execAction env (auditStepSpec env) (decideNextAction s2C3)
      (ws2C3 a1 c1 a2 c2) 2 = .ok (ws3C3 a1 c1 a2 c2 resp files) := by
    show execImpl env (ws2C3 a1 c1 a2 c2) 2 = _
    unfold execImpl
    rw [himpl]
    rfl
  have hexec3 : execAction env (auditStepSpec env) (decideNextAction s3C3)
      (ws3C3 a1 c1 a2 c2 resp files) 3 = .ok (ws4C3 a1 c1 a2 c2 resp atext files) := by
    show auditStepSpec env (ws3C3 a1 c1 a2 c2 resp files) 3 = _
    unfold auditStepSpec
    rw [hauda]
    rfl
  have hexec4 : execAction env (auditStepSpec env) (decideNextAction s4C3)
      (ws4C3 a1 c1 a2 c2 resp atext files) 4 = .ok (ws4C3 a1 c1 a2 c2 resp atext files) := rfl
  have hrun : orchestrate env (auditStepSpec env) freshWorkspace 10 =
      { crashed := none
        phases := [.ARCHITECTURAL_DIALOGUE, .DOCUMENTATION_SYNTHESIS, .IMPLEMENTATION,
                   .AUDIT, .COMPLETE]
        history := [decideNextAction (assess ws0C3), decideNextAction s1C3,
                    decideNextAction s2C3, decideNextAction s3C3, decideNextAction s4C3]
        budgetExhausted := false
        reportingDone := true
        cleanupDone := true
        finalWs := ws4C3 a1 c1 a2 c2 resp atext files } := by
    show loopGo env (auditStepSpec env) 10 ws0C3 0 [] [] = _
    rw [show (10 : Nat) = 9 + 1 from rfl,
      loopGo_step_ok env (auditStepSpec env) 9 ws0C3 0 [] [] (assess ws0C3)
        (decideNextAction (assess ws0C3)) (ws1C3 a1 c1 a2 c2) rfl rfl (by decide) hexec0]
    rw [show (9 : Nat) = 8 + 1 from rfl,
      loopGo_step_ok env (auditStepSpec env) 8 (ws1C3 a1 c1 a2 c2) (0 + 1) _ _ s1C3
        (decideNextAction s1C3) (ws2C3 a1 c1 a2 c2) hs1 rfl (by decide) hexec1]
    rw [show (8 : Nat) = 7 + 1 from rfl,
      loopGo_step_ok env (auditStepSpec env) 7 (ws2C3 a1 c1 a2 c2) (0 + 1 + 1) _ _ s2C3
        (decideNextAction s2C3) (ws3C3 a1 c1 a2 c2 resp files) hs2 rfl (by decide) hexec2]
    rw [show (7 : Nat) = 6 + 1 from rfl,
      loopGo_step_ok env (auditStepSpec env) 6 (ws3C3 a1 c1 a2 c2 resp files) (0 + 1 + 1 + 1) _ _
        s3C3 (decideNextAction s3C3) (ws4C3 a1 c1 a2 c2 resp atext files) hs3 rfl (by decide) hexec3]
    rw [show (6 : Nat) = 5 + 1 from rfl,
      loopGo_step_halt env (auditStepSpec env) 5 (ws4C3 a1 c1 a2 c2 resp atext files)
        (0 + 1 + 1 + 1 + 1) _ _ s4C3 (decideNextAction s4C3)
        (ws4C3 a1 c1 a2 c2 resp atext files) hs4 rfl (by decide) hexec4]
    rfl
  rw [hrun]
  exact ⟨rfl, rfl, rfl⟩

/-- Witness for the amended C3 at the concrete succeeding collaborators. -/
theorem c3_happy_path_amended_witness :
    (orchestrate happyEnv (auditStepSpec happyEnv) freshWorkspace 10).phases =
      [.ARCHITECTURAL_DIALOGUE, .DOCUMENTATION_SYNTHESIS, .IMPLEMENTATION,
       .AUDIT, .COMPLETE] ∧
    (orchestrate happyEnv (auditStepSpec happyEnv) freshWorkspace 10).crashed = none ∧
    (orchestrate happyEnv (auditStepSpec happyEnv) freshWorkspace 10).budgetExhausted = false :=
  c3_happy_path_amended happyEnv
    "Use Vite. CONSENSUS: Vite." "Fine." "Confirmed." "AGREED: ok."
    "# ARCHITECTURE" "# CONSTRAINTS" "Done." "AUDIT RESULT: PASS" ["src/App.tsx"]
    rfl rfl rfl rfl rfl (by decide) (by decide) (by decide) (by decide) (by decide)

theorem loopGo_history_len (env : RunEnv) (aud : Workspace → Nat → Except String Workspace) :
    ∀ (fuel : Nat) (w : Workspace) (t : Nat) (phs : List ProjectPhase)
      (hist : List OrchestratorAction),
      (loopGo env aud fuel w t phs hist).history.length ≤ hist.length + fuel := by
  intro fuel
  induction fuel with
  | zero =>
    intro w t phs hist
    simp [loopGo]
  | succ n ih =>
    intro w t phs hist
    simp only [loopGo]
    cases hex : execAction env aud (decideNextAction (assess w)) w t with
    | error e =>
      simp [List.length_append]
    | ok w2 =>
      by_cases hh : haltType (decideNextAction (assess w)).action_type = true
      · simp [hh, List.length_append]
      · have hh2 : haltType (decideNextAction (assess w)).action_type = false := by
          revert hh
          cases haltType (decideNextAction (assess w)).action_type <;> simp
        simp only [hh2, Bool.false_eq_true, if_false]
        calc (loopGo env aud n w2 (t + 1) (phs ++ [(assess w).current_phase])
                (hist ++ [decideNextAction (assess w)])).history.length
            ≤ (hist ++ [decideNextAction (assess w)]).length + n := ih w2 (t + 1) _ _
          _ = hist.length + 1 + n := by simp
          _ ≤ hist.length + (n + 1) := by omega

theorem loopGo_dropLast_not_halt (env : RunEnv)
    (aud : Workspace → Nat → Except String Workspace) :
    ∀ (fuel : Nat) (w : Workspace) (t : Nat) (phs : List ProjectPhase)
      (hist : List OrchestratorAction),
      (∀ a ∈ hist, haltType a.action_type = false) →
      ∀ a ∈ (loopGo env aud fuel w t phs hist).history.dropLast,
        haltType a.action_type = false := by
  intro fuel
  induction fuel with
  | zero =>
    intro w t phs hist hinv a ha
    simp only [loopGo] at ha
    exact hinv a (List.dropLast_subset _ ha)
  | succ n ih =>
    intro w t phs hist hinv a ha
    simp only [loopGo] at ha
    cases hex : execAction env aud (decideNextAction (assess w)) w t with
    | error e =>
      rw [hex] at ha
      simp only [List.dropLast_concat] at ha
      exact hinv a ha
    | ok w2 =>
      rw [hex] at ha
      by_cases hh : haltType (decideNextAction (assess w)).action_type = true
      · simp only [hh, if_true, List.dropLast_concat] at ha
        exact hinv a ha
      · have hh2 : haltType (decideNextAction (assess w)).action_type = false := by
          revert hh
          cases haltType (decideNextAction (assess w)).action_type <;> simp
        simp only [hh2, Bool.false_eq_true, if_false] at ha
        refine ih w2 (t + 1) _ _ ?_ a ha
        intro b hb
        rcases List.mem_append.mp hb with hb1 | hb2
        · exact hinv b hb1
        · rcases List.mem_singleton.mp hb2 with rfl
          exact hh2

theorem loopGo_budget_no_halt (env : RunEnv)
    (aud : Workspace → Nat → Except String Workspace) :
    ∀ (fuel : Nat) (w : Workspace) (t : Nat) (phs : List ProjectPhase)
      (hist : List OrchestratorAction),
      (∀ a ∈ hist, haltType a.action_type = false) →
      (loopGo env aud fuel w t phs hist).budgetExhausted = true →
      (loopGo env aud fuel w t phs hist).crashed = none ∧
      ∀ a ∈ (loopGo env aud fuel w t phs hist).history, haltType a.action_type = false := by
  intro fuel
  induction fuel with
  | zero =>
    intro w t phs hist hinv _hb
    exact ⟨rfl, hinv⟩
  | succ n ih =>
    intro w t phs hist hinv hb
    simp only [loopGo] at hb ⊢
    cases hex : execAction env aud (decideNextAction (assess w)) w t with
    | error e =>
      rw [hex] at hb
      simp at hb
    | ok w2 =>
      rw [hex] at hb
      by_cases hh : haltType (decideNextAction (assess w)).action_type = true
      · simp only [hh, if_true] at hb
        simp at hb
      · have hh2 : haltType (decideNextAction (assess w)).action_type = false := by
          revert hh
          cases haltType (decideNextAction (assess w)).action_type <;> simp
        simp only [hh2, Bool.false_eq_true, if_false] at hb ⊢
        refine ih w2 (t + 1) _ _ ?_ hb
        intro b hb2
        rcases List.mem_append.mp hb2 with hb3 | hb4
        · exact hinv b hb3
        · rcases List.mem_singleton.mp hb4 with rfl
          exact hh2

/-- A project whose workspace already holds requirements, a consensus
conversation and both documentation files: three stages (implementation,
audit, completion) remain to reach COMPLETE. -/
def docsReadyWorkspace : Workspace :=
  { workspaceRoot := "workspaces", projectName := "lp3", dirPresent := true,
    hasRequirementsFile := true,
    conversationFiles := [⟨"dialogue_1.md", 1, "CONSENSUS: v AGREED: v"⟩],
    hasArchDoc := true, hasConstraintsDoc := true, codeFiles := [], logFiles := [] }

/-- C8: the loop executes at most `max_iterations` actions and halts
immediately after a COMPLETE, ASK_HUMAN or ABORT action (every
non-final history entry is non-halting); a run whose budget is exhausted
carries the distinct incomplete outcome with no crash and no halting
action executed; and concretely, with `max_iterations = 1` on a project
needing three more stages (implementation, audit, completion — shown by the
five-iteration run reaching COMPLETE in exactly three), the run ends in the
incomplete outcome with exactly one history entry. -/
theorem c8_iteration_cap :
    (∀ (env : RunEnv) (aud : Workspace → Nat → Except String Workspace)
       (w : Workspace) (n : Nat),
      (orchestrate env aud w n).history.length ≤ n ∧
      (∀ a ∈ (orchestrate env aud w n).history.dropLast, haltType a.action_type = false) ∧
      ((orchestrate env aud w n).budgetExhausted = true →
        (orchestrate env aud w n).crashed = none ∧
        ∀ a ∈ (orchestrate env aud w n).history, haltType a.action_type = false)) ∧
    ((orchestrate happyEnv (auditStepSpec happyEnv) docsReadyWorkspace 1).budgetExhausted = true ∧
     (orchestrate happyEnv (auditStepSpec happyEnv) docsReadyWorkspace 1).history.length = 1 ∧
     (orchestrate happyEnv (auditStepSpec happyEnv) docsReadyWorkspace 5).phases =
       [.IMPLEMENTATION, .AUDIT, .COMPLETE] ∧
     (orchestrate happyEnv (auditStepSpec happyEnv) docsReadyWorkspace 5).budgetExhausted = false) := by
  constructor
  · intro env aud w n
    refine ⟨?_, ?_, ?_⟩
    · simpa using loopGo_history_len env aud n { w with dirPresent := true } 0 [] []
    · intro a ha
      exact loopGo_dropLast_not_halt env aud n { w with dirPresent := true } 0 [] []
        (by simp) a ha
    · intro hb
      exact loopGo_budget_no_halt env aud n { w with dirPresent := true } 0 [] []
        (by simp) hb
  · exact ⟨by decide, by decide, by decide, by decide⟩

/-- Witness for C8's universal part at a concrete run. -/
theorem c8_iteration_cap_witness :
    (orchestrate happyEnv auditStepStub freshWorkspace 7).history.length ≤ 7 :=
  (c8_iteration_cap.1 happyEnv auditStepStub freshWorkspace 7).1

end Spec2Proof
